import Mathlib

/-!
Verification of the price/index aggregation logic of `bot.py`
(Fear & Greed Telegram bot), as a shallow embedding in Lean 4.

Conventions of the embedding:
* Python floats are modelled as rationals (`ℚ`).
* Each external HTTP source attempt is modelled by its observable outcome,
  supplied in an `Env` record: `none` / `Except.error` stands for any
  exception raised during the request or JSON decoding (the code swallows
  all of them per source), `some` / `Except.ok` for a successful response.
* The module-level mutable globals `LAST_BTC_PRICE` / `LAST_SPX_PRICE`
  become an explicit `Cache` record threaded through `fetch_market_prices`.
* A Python function that may raise is modelled with `Option` / `Except`:
  a `none` / `.error` result stands for the call raising.
-/

namespace Bot

/-! ### Python `float(str)` parsing, `str.strip()`, `str.replace` -/

/-- Python whitespace characters recognised by `str.strip()` (the ASCII ones;
the sources feeding the parsers never produce exotic Unicode spaces). -/
def isPySpace (c : Char) : Bool :=
  c = ' ' ∨ c = '\t' ∨ c = '\n' ∨ c = '\r' ∨ c = '\x0b' ∨ c = '\x0c'

/-- `str.strip()` on a character list: drop leading and trailing whitespace. -/
def stripList (cs : List Char) : List Char :=
  ((cs.dropWhile isPySpace).reverse.dropWhile isPySpace).reverse

/-- `str.strip()`. -/
def pyStrip (s : String) : String := String.mk (stripList s.toList)

def isDigitCh (c : Char) : Bool := '0' ≤ c ∧ c ≤ '9'

/-- Numeric value of a decimal digit character. -/
def d2n (c : Char) : ℕ := c.toNat - 48

/-- Value of a list of decimal digit characters, most significant first. -/
def digitsVal (cs : List Char) : ℕ := cs.foldl (fun a c => a * 10 + d2n c) 0

/-- Leading decimal digits of a character list: their value, how many there
were, and the rest of the input. -/
def takeDigits : List Char → ℕ × ℕ × List Char
  | [] => (0, 0, [])
  | c :: r =>
    if isDigitCh c then
      let (v, n, rest) := takeDigits r
      (d2n c * 10 ^ n + v, n + 1, rest)
    else (0, 0, c :: r)

/-- Optional leading sign; returns `true` for `-`. -/
def takeSign : List Char → Bool × List Char
  | [] => (false, [])
  | c :: r =>
    if c = '+' then (false, r)
    else if c = '-' then (true, r)
    else (false, c :: r)

/-- Exponent part of a float literal: `e`/`E`, optional sign, at least one
digit, nothing after. Returns the signed exponent. -/
def parseExp : List Char → Option ℤ
  | c :: r =>
    if c = 'e' ∨ c = 'E' then
      let (neg, r1) := takeSign r
      let (v, n, r2) := takeDigits r1
      if n ≠ 0 ∧ r2 = [] then some (if neg then -(v : ℤ) else (v : ℤ)) else none
    else none
  | [] => none

/-- Python `float(s)` on an already-stripped string, modelled for finite
decimal literals: optional sign, digits with an optional decimal point
(at least one digit overall), optional exponent.  `none` models the
`ValueError` that `float` raises on anything else (`""`, `"."`, `"N/D"`,
`"2026-02-09T20:00:00Z"`, ...).  The special forms `inf`/`nan` and digit
underscores are not used by any of the repository's data sources and are
not modelled. -/
def pyFloatL : List Char → Option ℚ
  | cs =>
    let (neg, r0) := takeSign cs
    let (ip, ni, r1) := takeDigits r0
    let (fp, nf, r2) :=
      match r1 with
      | '.' :: r => takeDigits r
      | r => (0, 0, r)
    if ni + nf = 0 then none
    else
      let mag : ℚ := (ip : ℚ) + (fp : ℚ) / 10 ^ nf
      let signed : ℚ := if neg then -mag else mag
      match r2 with
      | [] => some signed
      | r2 =>
        match parseExp r2 with
        | some e => some (signed * 10 ^ e)
        | none => none

/-- Python `float(s)` (see `pyFloatL`); `float` itself also strips
surrounding whitespace. -/
def pyFloat (s : String) : Option ℚ := pyFloatL (stripList s.toList)

/-- `raw.replace("Z", "+00:00")`: the pattern is a single character, so this
is a per-character substitution. -/
def replaceZL (cs : List Char) : List Char :=
  cs.flatMap fun c => if c = 'Z' then ['+', '0', '0', ':', '0', '0'] else [c]

/-- Python `s.split(sep)` for a single-character separator: split on every
occurrence, keeping empty pieces (`"".split(",") == [""]`). -/
def splitCh (sep : Char) : List Char → List (List Char)
  | [] => [[]]
  | c :: r =>
    let rest := splitCh sep r
    if c = sep then [] :: rest
    else
      match rest with
      | h :: t => (c :: h) :: t
      | [] => [[c]]

/-- `line.split(",")`. -/
def rowSplit (s : String) : List String := (splitCh ',' s.toList).map String.mk

/-- Python `splitlines` followed by `strip` and dropping blank lines, the
common prelude of both CSV adapters:
`[line.strip() for line in text.splitlines() if line.strip()]`.
`splitlines` is modelled as splitting on `\n` / `\r`; a `\r\n` pair then
yields one extra empty piece, which the blank-line filter removes. -/
def csvLines (t : String) : List String :=
  ((t.split fun c => c = '\n' ∨ c = '\r').map pyStrip).filter (· ≠ "")

/-! ### The aggregator state and environment -/

/-- The module globals `LAST_BTC_PRICE` / `LAST_SPX_PRICE`
(`float | None`, both initialised to `None`). -/
structure Cache where
  lastBtc : Option ℚ
  lastSpx : Option ℚ
  deriving DecidableEq, Repr

/-- Process start: both slots `None`. -/
def Cache.empty : Cache := ⟨none, none⟩

/-- One element of Yahoo's `quoteResponse.result` array, as read by the
code: `item.get("symbol")` and `item.get("regularMarketPrice")`, either of
which may be absent. -/
structure YahooItem where
  symbol : Option String
  regularMarketPrice : Option ℚ
  deriving DecidableEq, Repr

/-- Outcomes of the five source attempts of one `fetch_market_prices` call.
For Yahoo, `Except.error` models any exception in the request/JSON step and
`Except.ok` the decoded result list; for Coinbase and CoinGecko, `some p`
models a response whose amount parsed to the float `p` and `none` any
swallowed exception; for the CSV sources, `some t` is the response text and
`none` a failed request. -/
structure Env where
  yahoo : Except Unit (List YahooItem)
  coinbase : Option ℚ
  coingecko : Option ℚ
  stooq : Option String
  fred : Option String

/-- The Yahoo loop: walk `results`, remembering the last item whose symbol
is `BTC-USD` (resp. `^GSPC`) with a non-`None` `regularMarketPrice`. -/
def yahooScan : Except Unit (List YahooItem) → Option ℚ × Option ℚ
  | .error _ => (none, none)
  | .ok items =>
    items.foldl
      (fun acc it =>
        (if it.symbol = some "BTC-USD" ∧ it.regularMarketPrice ≠ none then
           it.regularMarketPrice
         else acc.1,
         if it.symbol = some "^GSPC" ∧ it.regularMarketPrice ≠ none then
           it.regularMarketPrice
         else acc.2))
      (none, none)

/-- `if x is None: x = y` — keep the first value if present. -/
def orO (a b : Option ℚ) : Option ℚ :=
  match a with
  | some p => some p
  | none => b

/-- The guarded read of the Stooq CSV data row
(`if len(row) > 6 and row[6] not in {"", "N/D"}: spx_price = float(row[6])`);
a `float` failure is swallowed by the surrounding `except`. -/
def stooqRow (row : List String) : Option ℚ :=
  if 6 < row.length ∧ row.getD 6 "" ≠ "" ∧ row.getD 6 "" ≠ "N/D" then
    pyFloat (row.getD 6 "")
  else none

/-- Stooq adapter: on response text `t`, strip and drop blank lines; if at
least two lines remain, split the second on commas and read the close price
(7th column) through `stooqRow`.  `none` on the request failing, on fewer
than two lines, or on any swallowed parse failure. -/
def stooqParse : Option String → Option ℚ
  | none => none
  | some t =>
    let lines := csvLines t
    if 2 ≤ lines.length then stooqRow (rowSplit (lines.getD 1 "")) else none

/-- The FRED row filter: `len(parts) >= 2 and parts[1] not in {"", "."}`. -/
def fredRowOk (line : String) : Bool :=
  let parts := rowSplit line
  2 ≤ parts.length ∧ parts.getD 1 "" ≠ "" ∧ parts.getD 1 "" ≠ "."

/-- The FRED backwards walk over the data rows: the first row from the end
passing `fredRowOk` is `float`ed; if that `float` raises, the exception
aborts the walk and the adapter yields nothing (it does not continue to
earlier rows). -/
def fredScan (rows : List String) : Option ℚ :=
  match (rows.drop 1).reverse.find? fredRowOk with
  | some line => pyFloat ((rowSplit line).getD 1 "")
  | none => none

/-- FRED adapter: strip and drop blank lines, then walk the data rows
backwards via `fredScan`. -/
def fredParse : Option String → Option ℚ
  | none => none
  | some t => fredScan (csvLines t)

/-- The aggregate-exhaustion error message raised by `fetch_market_prices`. -/
def exhaustedMsg : String := "не удалось получить цены BTC/S&P ни из одного источника"

/-- The live BTC chain of `fetch_market_prices`: Yahoo's `BTC-USD` quote,
else Coinbase, else CoinGecko (each fallback tried only while
`btc_price is None`). -/
def liveBtc (env : Env) : Option ℚ :=
  orO (orO (yahooScan env.yahoo).1 env.coinbase) env.coingecko

/-- The live S&P chain of `fetch_market_prices`: Yahoo's `^GSPC` quote,
else the Stooq CSV, else the FRED CSV. -/
def liveSpx (env : Env) : Option ℚ :=
  orO (orO (yahooScan env.yahoo).2 (stooqParse env.stooq)) (fredParse env.fred)

/-- `fetch_market_prices()` as a function of the source outcomes and the
cache: Yahoo first (both symbols), then Coinbase and CoinGecko for BTC,
Stooq and FRED for S&P, each tried only while the instrument is still
unresolved; then the cache as last resort; raise (`Except.error`) if either
instrument is still missing — the cache is only written after that check,
just before returning. -/
def fetch_market_prices (env : Env) (c : Cache) : Except String (ℚ × ℚ) × Cache :=
  match orO (liveBtc env) c.lastBtc, orO (liveSpx env) c.lastSpx with
  | some b, some s => (Except.ok (b, s), ⟨some b, some s⟩)
  | none, _ => (Except.error exhaustedMsg, c)
  | _, none => (Except.error exhaustedMsg, c)

/-- A sequence of calls, threading the cache; call results are discarded
(each caller of `fetch_market_prices` handles its own result). -/
def runCalls (envs : List Env) (c : Cache) : Cache :=
  envs.foldl (fun c e => (fetch_market_prices e c).2) c

/-! ### `parse_timestamp_utc`

A naive `datetime` is identified with its (rational) number of seconds
since the Unix epoch; `datetime.utcfromtimestamp` is then the identity on
the values Python accepts (years 1 to 9999) and a `ValueError` outside
that range. -/

/-- Earliest representable `datetime` (0001-01-01T00:00:00) as epoch
seconds. -/
def minEpoch : ℤ := -62135596800

/-- First epoch second past `datetime.max` (9999-12-31T23:59:59.999999). -/
def maxEpochSucc : ℤ := 253402300800

/-- `datetime.utcfromtimestamp(ts)`: the naive UTC datetime (identified
with its epoch seconds) when `ts` is within `datetime`'s year range,
`none` for the `ValueError` raised outside it. -/
def utcfromtimestampQ (ts : ℚ) : Option ℚ :=
  if (minEpoch : ℚ) ≤ ts ∧ ts < (maxEpochSucc : ℚ) then some ts else none

/-- Lines 44–45 of the source: `if ts > 1e12: ts = ts / 1000.0`.  The
comparison is on the signed value, not its magnitude. -/
def effectiveSeconds (ts : ℚ) : ℚ := if 10 ^ 12 < ts then ts / 1000 else ts

/-- The numeric branch of `parse_timestamp_utc`: millisecond heuristic,
then `utcfromtimestamp`. -/
def numericBranch (ts : ℚ) : Option ℚ := utcfromtimestampQ (effectiveSeconds ts)

/-- Proleptic-Gregorian leap year. -/
def isLeap (y : ℕ) : Bool := (y % 4 = 0 ∧ y % 100 ≠ 0) ∨ y % 400 = 0

/-- Length of month `m` of year `y`. -/
def daysInMonth (y m : ℕ) : ℕ :=
  if m = 2 then (if isLeap y then 29 else 28)
  else if m = 4 ∨ m = 6 ∨ m = 9 ∨ m = 11 then 30 else 31

/-- Day count of a civil date (shifted so that all intermediate values are
natural numbers; valid for years 1–9999, the `datetime` range). -/
def civilDays (y m d : ℕ) : ℕ :=
  let ys := if m ≤ 2 then y - 1 else y
  let era := ys / 400
  let yoe := ys % 400
  let mp := if 2 < m then m - 3 else m + 9
  let doy := (153 * mp + 2) / 5 + d - 1
  let doe := yoe * 365 + yoe / 4 - yoe / 100 + doy
  era * 146097 + doe

/-- Epoch seconds of the civil datetime `y-m-d h:mi:s` (1970-01-01 is day
719468 of the shifted count). -/
def toEpoch (y m d h mi s : ℕ) : ℤ :=
  ((civilDays y m d : ℤ) - 719468) * 86400 + h * 3600 + mi * 60 + s

/-- Consume one expected character. -/
def expectCh (c : Char) : List Char → Option (List Char)
  | [] => none
  | x :: r => if x = c then some r else none

/-- Consume exactly two decimal digits. -/
def twoDigits : List Char → Option (ℕ × List Char)
  | c1 :: c2 :: r =>
    if isDigitCh c1 ∧ isDigitCh c2 then some (d2n c1 * 10 + d2n c2, r) else none
  | _ => none

/-- Consume exactly four decimal digits. -/
def fourDigits : List Char → Option (ℕ × List Char)
  | c1 :: c2 :: c3 :: c4 :: r =>
    if isDigitCh c1 ∧ isDigitCh c2 ∧ isDigitCh c3 ∧ isDigitCh c4 then
      some (d2n c1 * 1000 + d2n c2 * 100 + d2n c3 * 10 + d2n c4, r)
    else none
  | _ => none

/-- A two-digit field followed by one expected separator character. -/
def fieldSep (sep : Char) (cs : List Char) : Option (ℕ × List Char) :=
  match twoDigits cs with
  | none => none
  | some (v, r) =>
    match expectCh sep r with
    | none => none
    | some r2 => some (v, r2)

/-- The `YYYY-MM-DDT` prefix of an ISO string. -/
def parseDatePart (cs : List Char) : Option (ℕ × ℕ × ℕ × List Char) :=
  match fourDigits cs with
  | none => none
  | some (y, r1) =>
    match expectCh '-' r1 with
    | none => none
    | some r2 =>
      match fieldSep '-' r2 with
      | none => none
      | some (mo, r4) =>
        match fieldSep 'T' r4 with
        | none => none
        | some (d, r6) => some (y, mo, d, r6)

/-- The `HH:MM:SS` part of an ISO string. -/
def parseTimePart (cs : List Char) : Option (ℕ × ℕ × ℕ × List Char) :=
  match fieldSep ':' cs with
  | none => none
  | some (h, r1) =>
    match fieldSep ':' r1 with
    | none => none
    | some (mi, r2) =>
      match twoDigits r2 with
      | none => none
      | some (s, r3) => some (h, mi, s, r3)

/-- The tail of an ISO string after the seconds: empty (naive) or a
`±HH:MM` offset. -/
def parseOffsetPart : List Char → Option (Option ℤ)
  | [] => some none
  | c :: r =>
    if c = '+' ∨ c = '-' then
      match fieldSep ':' r with
      | none => none
      | some (oh, r1) =>
        match twoDigits r1 with
        | none => none
        | some (om, r2) =>
          if r2 = [] ∧ oh ≤ 23 ∧ om ≤ 59 then
            some (some (if c = '-' then -((oh : ℤ) * 3600 + (om : ℤ) * 60)
                        else (oh : ℤ) * 3600 + (om : ℤ) * 60))
          else none
    else none

/-- `datetime.fromisoformat`, modelled for the canonical shape
`YYYY-MM-DDTHH:MM:SS` with an optional `±HH:MM` offset — the shapes the
repository's upstream sources emit (Python additionally accepts date-only
strings, fractional seconds, and similar variants; all inputs the
repository feeds through this branch are either of the modelled shape or
fail both in Python and here). Field ranges are validated as Python does.
Returns the wall-clock epoch seconds and the offset seconds, if one was
present. -/
def pyFromIsoL (cs : List Char) : Option (ℤ × Option ℤ) :=
  match parseDatePart cs with
  | none => none
  | some (y, mo, d, r1) =>
    match parseTimePart r1 with
    | none => none
    | some (h, mi, s, r2) =>
      if 1 ≤ y ∧ 1 ≤ mo ∧ mo ≤ 12 ∧ 1 ≤ d ∧ d ≤ daysInMonth y mo ∧
          h ≤ 23 ∧ mi ≤ 59 ∧ s ≤ 59 then
        match parseOffsetPart r2 with
        | none => none
        | some off => some (toEpoch y mo d h mi s, off)
      else none

/-- The ISO branch of `parse_timestamp_utc` (lines 48–53): replace `Z` by
`+00:00`, parse; an aware result is shifted to UTC and made naive
(`astimezone` raises when the shifted instant leaves `datetime`'s range),
a naive result is returned as-is. -/
def isoBranch (raw : String) : Option ℚ :=
  match pyFromIsoL (replaceZL raw.toList) with
  | none => none
  | some (wall, none) => some (wall : ℚ)
  | some (wall, some off) =>
    if minEpoch ≤ wall - off ∧ wall - off < maxEpochSucc then
      some ((wall - off : ℤ) : ℚ)
    else none

/-- The untyped scalar `parse_timestamp_utc` receives: CNN sends the
timestamp as a number or as a string. -/
inductive PyScalar where
  | num (q : ℚ)
  | str (s : String)

/-- `parse_timestamp_utc(timestamp_raw)`: stringify and strip, try the
numeric branch first (`float` round-trips `str` of a number exactly), fall
back to ISO parsing on `ValueError`.  For a numeric input whose converted
value is outside `datetime`'s range, the caught `ValueError` sends the
numeric string to `fromisoformat`, which always fails on it, so the call
raises (`none`).  A float-parseable string never parses as ISO (ISO needs
a `-` after the year, which `float` rejects), and vice versa. -/
def parse_timestamp_utc : PyScalar → Option ℚ
  | .num q => numericBranch q
  | .str s =>
    let raw := pyStrip s
    match pyFloat raw with
    | some ts =>
      match numericBranch ts with
      | some d => some d
      | none => isoBranch raw
    | none => isoBranch raw

/-! Rendering of the inputs quantified over in the timestamp claims. -/

/-- Decimal digit character. -/
def digitCh (n : ℕ) : Char := Char.ofNat (48 + n)

/-- Two-digit zero-padded decimal rendering (of `n % 100`). -/
def pad2 (n : ℕ) : List Char := [digitCh (n / 10 % 10), digitCh (n % 10)]

/-- Four-digit zero-padded decimal rendering (of `n % 10000`). -/
def pad4 (n : ℕ) : List Char :=
  [digitCh (n / 1000 % 10), digitCh (n / 100 % 10), digitCh (n / 10 % 10), digitCh (n % 10)]

/-- `YYYY-MM-DDTHH:MM:SS`. -/
def isoCore (y mo d h mi s : ℕ) : List Char :=
  pad4 y ++ '-' :: (pad2 mo ++ '-' :: (pad2 d ++ 'T' ::
    (pad2 h ++ ':' :: (pad2 mi ++ ':' :: pad2 s))))

/-- The timezone suffix of an ISO input: trailing `Z` or an explicit
offset. -/
inductive OffsetSpec where
  | zulu : OffsetSpec
  | plus (oh om : ℕ) : OffsetSpec
  | minus (oh om : ℕ) : OffsetSpec

/-- Characters of the suffix. -/
def OffsetSpec.suffix : OffsetSpec → List Char
  | .zulu => ['Z']
  | .plus oh om => '+' :: (pad2 oh ++ ':' :: pad2 om)
  | .minus oh om => '-' :: (pad2 oh ++ ':' :: pad2 om)

/-- Signed offset in seconds. -/
def OffsetSpec.seconds : OffsetSpec → ℤ
  | .zulu => 0
  | .plus oh om => (oh : ℤ) * 3600 + (om : ℤ) * 60
  | .minus oh om => -((oh : ℤ) * 3600 + (om : ℤ) * 60)

/-- Offset fields within the range `timezone` accepts. -/
def OffsetSpec.valid : OffsetSpec → Prop
  | .zulu => True
  | .plus oh om => oh ≤ 23 ∧ om ≤ 59
  | .minus oh om => oh ≤ 23 ∧ om ≤ 59

/-- An ISO-8601 input string for the given civil fields and suffix. -/
def isoString (y mo d h mi s : ℕ) (off : OffsetSpec) : String :=
  String.mk (isoCore y mo d h mi s ++ off.suffix)

/-- The minute a normalized timestamp is displayed at
(`strftime("%Y-%m-%d %H:%M UTC")` truncates to the minute). -/
def minuteFloor (q : ℚ) : ℤ := ⌊q / 60⌋

/-! ### `build_report_text`

The three fetchers perform HTTP; the report builder is modelled as a
function of their outcomes (`Except.error e` carries `str(exc)`). -/

def BOT_VERSION : String := "v1.5.4"

/-- `with_version`. -/
def with_version (text : String) : String := "[" ++ BOT_VERSION ++ "]\n" ++ text

/-- Round half to even, as Python's `format` does. -/
def roundHalfEven (q : ℚ) : ℤ :=
  let f := ⌊q⌋
  let r := q - f
  if r < 1 / 2 then f
  else if 1 / 2 < r then f + 1
  else if f % 2 = 0 then f else f + 1

/-- `f"{q:.2f}"`. -/
def fmtFixed2 (q : ℚ) : String :=
  let n := roundHalfEven (q * 100)
  let a := n.natAbs
  (if n < 0 then "-" else "") ++ toString (a / 100) ++ "." ++ String.mk (pad2 (a % 100))

/-- Insert thousands separators into a reversed digit list. -/
def group3 : List Char → List Char
  | d1 :: d2 :: d3 :: d4 :: rest => d1 :: d2 :: d3 :: ',' :: group3 (d4 :: rest)
  | l => l

/-- Decimal rendering of a natural number with thousands separators. -/
def fmtComma (n : ℕ) : String := String.mk ((group3 (toString n).toList.reverse).reverse)

/-- `f"{q:,.2f}"`. -/
def fmtComma2 (q : ℚ) : String :=
  let n := roundHalfEven (q * 100)
  let a := n.natAbs
  (if n < 0 then "-" else "") ++ fmtComma (a / 100) ++ "." ++ String.mk (pad2 (a % 100))

/-- Stock section on success: `f"Stock Fear & Greed (CNN): {score:.2f} {rating} {updated_at}"`. -/
def stockBlockOk (score : ℚ) (rating updated : String) : String :=
  "Stock Fear & Greed (CNN): " ++ fmtFixed2 score ++ " " ++ rating ++ " " ++ updated

/-- Stock section on failure. -/
def stockBlockErr (e : String) : String :=
  "Stock Fear & Greed (CNN): ошибка (" ++ e ++ ")"

/-- Crypto section on success. -/
def cryptoBlockOk (score : ℤ) (rating updated : String) : String :=
  "Crypto Fear & Greed: " ++ toString score ++ " " ++ rating ++ " " ++ updated

/-- Crypto section on failure. -/
def cryptoBlockErr (e : String) : String :=
  "Crypto Fear & Greed: ошибка (" ++ e ++ ")"

/-- Prices section on success. -/
def pricesBlockOk (btc spx : ℚ) : String :=
  "Bitcoin (BTC-USD): $" ++ fmtComma2 btc ++ "\n" ++ "S&P 500 (^GSPC): " ++ fmtComma2 spx

/-- Prices section on failure. -/
def pricesBlockErr (e : String) : String :=
  "Рыночные цены: временно недоступны (" ++ e ++ ")"

/-- `build_report_text()` as a function of the three fetch outcomes: each
section renders from its own outcome, failures become inline error lines,
and the three sections are always joined. -/
def build_report_text (stock : Except String (ℚ × String × String))
    (crypto : Except String (ℤ × String × String))
    (prices : Except String (ℚ × ℚ)) : String :=
  let sb := match stock with
    | .ok (sc, r, u) => stockBlockOk sc r u
    | .error e => stockBlockErr e
  let cb := match crypto with
    | .ok (sc, r, u) => cryptoBlockOk sc r u
    | .error e => cryptoBlockErr e
  let pb := match prices with
    | .ok (b, s) => pricesBlockOk b s
    | .error e => pricesBlockErr e
  with_version (sb ++ "\n\n" ++ cb ++ "\n\n" ++ pb)

/-- Substring containment, at the character-list level. -/
def strContains (hay needle : String) : Prop :=
  ∃ p q, hay.toList = p ++ needle.toList ++ q

/-! Concrete environments used to instantiate the theorems. -/

/-- Every source attempt fails. -/
def envAllFail : Env := ⟨Except.error (), none, none, none, none⟩

/-- Yahoo fails; Coinbase answers `100`; everything else fails. -/
def envCoinbaseOnly : Env := ⟨Except.error (), some 100, none, none, none⟩

/-- Yahoo fails; Coinbase answers `67000.12`; everything else fails. -/
def envCoinbase67000 : Env := ⟨Except.error (), some (6700012 / 100), none, none, none⟩

/-- Yahoo answers both symbols (`65000` / `6000`); the fallbacks are idle. -/
def envYahooBoth : Env :=
  ⟨Except.ok [⟨some "BTC-USD", some 65000⟩, ⟨some "^GSPC", some 6000⟩],
    none, none, none, none⟩

/-! ### Helper lemmas about the aggregator -/

@[simp] theorem orO_some (a : ℚ) (b : Option ℚ) : orO (some a) b = some a := rfl

@[simp] theorem orO_none (b : Option ℚ) : orO none b = b := rfl

theorem fetch_eq_ok {env : Env} {c : Cache} {b s : ℚ}
    (hb : orO (liveBtc env) c.lastBtc = some b)
    (hs : orO (liveSpx env) c.lastSpx = some s) :
    fetch_market_prices env c = (Except.ok (b, s), ⟨some b, some s⟩) := by
  unfold fetch_market_prices
  rw [hb, hs]

theorem fetch_eq_error_left {env : Env} {c : Cache}
    (hb : orO (liveBtc env) c.lastBtc = none) :
    fetch_market_prices env c = (Except.error exhaustedMsg, c) := by
  unfold fetch_market_prices
  rw [hb]
  cases orO (liveSpx env) c.lastSpx <;> rfl

theorem fetch_eq_error_right {env : Env} {c : Cache}
    (hs : orO (liveSpx env) c.lastSpx = none) :
    fetch_market_prices env c = (Except.error exhaustedMsg, c) := by
  unfold fetch_market_prices
  rw [hs]
  cases orO (liveBtc env) c.lastBtc <;> rfl

theorem fetch_b_eq_or (env : Env) (c : Cache) :
    fetch_market_prices env c = (Except.error exhaustedMsg, c) ∨
    ∃ b s, orO (liveBtc env) c.lastBtc = some b ∧
      orO (liveSpx env) c.lastSpx = some s ∧
      fetch_market_prices env c = (Except.ok (b, s), ⟨some b, some s⟩) := by
  cases hb : orO (liveBtc env) c.lastBtc with
  | none => exact Or.inl (fetch_eq_error_left hb)
  | some b =>
    cases hs : orO (liveSpx env) c.lastSpx with
    | none => exact Or.inl (fetch_eq_error_right hs)
    | some s => exact Or.inr ⟨b, s, rfl, rfl, fetch_eq_ok hb hs⟩

/-! ### Claim theorems: the aggregator -/

/-- C1: when every live source for an instrument fails, the call fails
with the single aggregate error (and no partial result) if that
instrument's cache slot is empty; if the slot holds a price, that cached
price is returned for the instrument (provided the whole call returns, for
which the other instrument must itself resolve from a live source or the
cache). -/
theorem C1_exhaustion_uses_cache_or_raises (env : Env) (c : Cache) :
    (liveBtc env = none → c.lastBtc = none →
      fetch_market_prices env c = (Except.error exhaustedMsg, c)) ∧
    (liveSpx env = none → c.lastSpx = none →
      fetch_market_prices env c = (Except.error exhaustedMsg, c)) ∧
    (∀ v, liveBtc env = none → c.lastBtc = some v →
      (∀ p c2, fetch_market_prices env c = (Except.ok p, c2) → p.1 = v) ∧
      (∀ s, orO (liveSpx env) c.lastSpx = some s →
        fetch_market_prices env c = (Except.ok (v, s), ⟨some v, some s⟩))) ∧
    (∀ v, liveSpx env = none → c.lastSpx = some v →
      (∀ p c2, fetch_market_prices env c = (Except.ok p, c2) → p.2 = v) ∧
      (∀ b, orO (liveBtc env) c.lastBtc = some b →
        fetch_market_prices env c = (Except.ok (b, v), ⟨some b, some v⟩))) := by
  refine ⟨?_, ?_, ?_, ?_⟩
  · intro hb hc
    exact fetch_eq_error_left (by rw [hb, hc]; rfl)
  · intro hs hc
    exact fetch_eq_error_right (by rw [hs, hc]; rfl)
  · intro v hb hc
    have hb2 : orO (liveBtc env) c.lastBtc = some v := by rw [hb, hc]; rfl
    constructor
    · intro p c2 hp
      cases hs : orO (liveSpx env) c.lastSpx with
      | none =>
        rw [fetch_eq_error_right hs] at hp
        simp [Prod.ext_iff] at hp
      | some s =>
        rw [fetch_eq_ok hb2 hs] at hp
        simp [Prod.ext_iff] at hp
        rw [← hp.1.1]
    · intro s hs
      exact fetch_eq_ok hb2 hs
  · intro v hs hc
    have hs2 : orO (liveSpx env) c.lastSpx = some v := by rw [hs, hc]; rfl
    constructor
    · intro p c2 hp
      cases hb : orO (liveBtc env) c.lastBtc with
      | none =>
        rw [fetch_eq_error_left hb] at hp
        simp [Prod.ext_iff] at hp
      | some b =>
        rw [fetch_eq_ok hb hs2] at hp
        simp [Prod.ext_iff] at hp
        rw [← hp.1.2]
    · intro b hb
      exact fetch_eq_ok hb hs2

/-- C1 witness: with every source failing and an empty cache the call
raises the aggregate error; with a cached BTC of `65000.00` (and a cached
S&P), the cached value is returned instead. -/
theorem C1_exhaustion_uses_cache_or_raises_witness :
    fetch_market_prices envAllFail Cache.empty =
      (Except.error exhaustedMsg, Cache.empty) ∧
    fetch_market_prices envAllFail ⟨some 65000, some 6000⟩ =
      (Except.ok (65000, 6000), ⟨some 65000, some 6000⟩) :=
  ⟨(C1_exhaustion_uses_cache_or_raises envAllFail Cache.empty).1 rfl rfl,
   ((C1_exhaustion_uses_cache_or_raises envAllFail ⟨some 65000, some 6000⟩).2.2.1
      65000 rfl rfl).2 6000 rfl⟩

/-- C2: with the combined Yahoo provider failing, the dedicated Coinbase
spot provider answering `67000.12` supplies the returned BTC price — for
any CoinGecko outcome, which is never consulted — and the BTC cache slot
holds `67000.12` afterwards (the S&P side resolving from its own chain or
cache so that the call returns). -/
theorem C2_btc_fallback_order (env : Env) (c : Cache) (s : ℚ)
    (hy : env.yahoo = Except.error ())
    (hcb : env.coinbase = some (6700012 / 100))
    (hs : orO (liveSpx env) c.lastSpx = some s) :
    fetch_market_prices env c =
      (Except.ok (6700012 / 100, s), ⟨some (6700012 / 100), some s⟩) := by
  have hb : orO (liveBtc env) c.lastBtc = some (6700012 / 100) := by
    unfold liveBtc
    rw [hy, hcb]
    rfl
  exact fetch_eq_ok hb hs

/-- C2 witness: Yahoo down, Coinbase answering `67000.12`, the S&P side
served from the cache: the call returns BTC `67000.12` and caches it. -/
theorem C2_btc_fallback_order_witness :
    fetch_market_prices envCoinbase67000 ⟨none, some 42⟩ =
      (Except.ok (6700012 / 100, 42), ⟨some (6700012 / 100), some 42⟩) :=
  C2_btc_fallback_order envCoinbase67000 ⟨none, some 42⟩ 42 rfl rfl rfl

/-- C3 counterexample: in a call where the BTC chain succeeds live
(Coinbase answers `100`) but the S&P chain fails entirely with an empty
cache, the call raises and the BTC cache slot is NOT overwritten — so the
cache entry is not updated "before the call returns or raises" as the
claim states. -/
theorem C3_counterexample :
    liveBtc envCoinbaseOnly = some 100 ∧
    (fetch_market_prices envCoinbaseOnly Cache.empty).1 = Except.error exhaustedMsg ∧
    (fetch_market_prices envCoinbaseOnly Cache.empty).2.lastBtc = none :=
  ⟨rfl, rfl, rfl⟩

/-- C3 (amended): whenever an instrument's live chain succeeds AND the
call returns successfully (including calls where the other instrument's
live chain fails entirely and its cached value is used), the returned
price for the instrument is the fresh value and that instrument's cache
slot is overwritten with it; on a call that raises, no slot is updated. -/
theorem C3_overwrite_on_successful_return (env : Env) (c : Cache) :
    (∀ p, liveBtc env = some p → ∀ b s c2,
      fetch_market_prices env c = (Except.ok (b, s), c2) →
      b = p ∧ c2.lastBtc = some p) ∧
    (∀ p, liveSpx env = some p → ∀ b s c2,
      fetch_market_prices env c = (Except.ok (b, s), c2) →
      s = p ∧ c2.lastSpx = some p) := by
  constructor
  · intro p hp b s c2 h
    have hb : orO (liveBtc env) c.lastBtc = some p := by rw [hp]; rfl
    cases hs : orO (liveSpx env) c.lastSpx with
    | none =>
      rw [fetch_eq_error_right hs] at h
      simp [Prod.ext_iff] at h
    | some s2 =>
      rw [fetch_eq_ok hb hs] at h
      simp [Prod.ext_iff] at h
      exact ⟨h.1.1.symm, by rw [← h.2]⟩
  · intro p hp b s c2 h
    have hs : orO (liveSpx env) c.lastSpx = some p := by rw [hp]; rfl
    cases hb : orO (liveBtc env) c.lastBtc with
    | none =>
      rw [fetch_eq_error_left hb] at h
      simp [Prod.ext_iff] at h
    | some b2 =>
      rw [fetch_eq_ok hb hs] at h
      simp [Prod.ext_iff] at h
      exact ⟨h.1.2.symm, by rw [← h.2]⟩

/-- C3 witness: BTC fresh from Coinbase while the S&P chain fails and its
cache serves `42`: the returned BTC is the fresh `100` and the slot is
overwritten with it. -/
theorem C3_overwrite_on_successful_return_witness :
    (100 : ℚ) = 100 ∧ (Cache.mk (some 100) (some 42)).lastBtc = some 100 :=
  (C3_overwrite_on_successful_return envCoinbaseOnly ⟨none, some 42⟩).1
    100 rfl 100 42 ⟨some 100, some 42⟩ rfl

/-- C4: per call, the cache either stays exactly as it was or both slots
are overwritten with the successfully returned prices (so a slot is only
ever assigned a non-null fetched value); consequently, over any sequence
of calls, a slot that is non-null never becomes null again. -/
theorem C4_cache_never_cleared :
    (∀ env c, (fetch_market_prices env c).2 = c ∨
      ∃ b s, (fetch_market_prices env c).1 = Except.ok (b, s) ∧
        (fetch_market_prices env c).2 = ⟨some b, some s⟩) ∧
    (∀ envs c,
      (c.lastBtc.isSome = true → (runCalls envs c).lastBtc.isSome = true) ∧
      (c.lastSpx.isSome = true → (runCalls envs c).lastSpx.isSome = true)) := by
  have step : ∀ env c, (fetch_market_prices env c).2 = c ∨
      ∃ b s, (fetch_market_prices env c).1 = Except.ok (b, s) ∧
        (fetch_market_prices env c).2 = ⟨some b, some s⟩ := by
    intro env c
    rcases fetch_b_eq_or env c with h | ⟨b, s, _, _, h⟩
    · exact Or.inl (by rw [h])
    · exact Or.inr ⟨b, s, by rw [h], by rw [h]⟩
  refine ⟨step, ?_⟩
  intro envs
  induction envs with
  | nil => exact fun c => ⟨id, id⟩
  | cons e es ih =>
    intro c
    have hrun : runCalls (e :: es) c = runCalls es (fetch_market_prices e c).2 := rfl
    rcases step e c with h | ⟨b, s, _, h2⟩
    · rw [hrun, h]
      exact ih c
    · rw [hrun, h2]
      exact ⟨fun _ => (ih ⟨some b, some s⟩).1 rfl, fun _ => (ih ⟨some b, some s⟩).2 rfl⟩

/-- C4 witness: a populated slot survives a call in which every live
source fails. -/
theorem C4_cache_never_cleared_witness :
    (runCalls [envAllFail] ⟨some 65000, some 6000⟩).lastBtc.isSome = true :=
  (C4_cache_never_cleared.2 [envAllFail] ⟨some 65000, some 6000⟩).1 rfl

/-- C5: if a first call succeeds with prices `(b, s)` and in a second call
every live source for both instruments fails, the second call still
succeeds and returns exactly `(b, s)` (served from the cache the first
call wrote). -/
theorem C5_second_call_from_cache (env1 env2 : Env) (c c1 : Cache) (b s : ℚ)
    (h1 : fetch_market_prices env1 c = (Except.ok (b, s), c1))
    (hy : yahooScan env2.yahoo = (none, none))
    (hcb : env2.coinbase = none) (hcg : env2.coingecko = none)
    (hst : stooqParse env2.stooq = none) (hf : fredParse env2.fred = none) :
    fetch_market_prices env2 c1 = (Except.ok (b, s), c1) := by
  have hc1 : c1 = ⟨some b, some s⟩ := by
    rcases fetch_b_eq_or env1 c with h | ⟨b2, s2, _, _, h⟩
    · rw [h1] at h
      simp [Prod.ext_iff] at h
    · rw [h1] at h
      simp [Prod.ext_iff] at h
      rw [h.2, ← h.1.1, ← h.1.2]
  have hlb : liveBtc env2 = none := by
    unfold liveBtc
    rw [hy, hcb, hcg]
    rfl
  have hls : liveSpx env2 = none := by
    unfold liveSpx
    rw [hy, hst, hf]
    rfl
  subst hc1
  exact fetch_eq_ok (by rw [hlb]; rfl) (by rw [hls]; rfl)

/-- C5 witness: Yahoo serves `(65000, 6000)` in call one; in call two all
sources fail and the same pair is returned. -/
theorem C5_second_call_from_cache_witness :
    fetch_market_prices envAllFail ⟨some 65000, some 6000⟩ =
      (Except.ok (65000, 6000), ⟨some 65000, some 6000⟩) :=
  C5_second_call_from_cache envYahooBoth envAllFail Cache.empty
    ⟨some 65000, some 6000⟩ 65000 6000 rfl rfl rfl rfl rfl rfl

/-- C10: whenever `fetch_market_prices` raises its all-sources-exhausted
error, both cache slots are left exactly as they were before the call;
a price fetched live for one instrument during such a call is discarded,
not cached (the cache assignment sits after the raise). -/
theorem C10_raise_leaves_cache_untouched (env : Env) (c : Cache) (e : String)
    (h : (fetch_market_prices env c).1 = Except.error e) :
    (fetch_market_prices env c).2 = c := by
  rcases fetch_b_eq_or env c with h2 | ⟨b, s, _, _, h2⟩
  · rw [h2]
  · rw [h2] at h ⊢
    cases h

/-- C10 witness: the BTC chain succeeds live (Coinbase `100`) while the
S&P side is empty-handed; the call raises and the freshly fetched BTC
price is discarded — the cache is still empty. -/
theorem C10_raise_leaves_cache_untouched_witness :
    liveBtc envCoinbaseOnly = some 100 ∧
    (fetch_market_prices envCoinbaseOnly Cache.empty).2 = Cache.empty :=
  ⟨rfl, C10_raise_leaves_cache_untouched envCoinbaseOnly Cache.empty
    exhaustedMsg rfl⟩

/-! ### Claim theorems: CSV tolerance -/

/-- C8: a quote row whose price field is empty or one of the placeholder
sentinels `N/D` or `.` never produces a price in either S&P CSV adapter:
the Stooq row read yields nothing for it (the `""`/`"N/D"` guard, or the
swallowed `float(".")` failure), and the FRED backwards walk yields
nothing when the data rows carry only such fields (`""`/`"."` are skipped
by the filter, `"N/D"` makes the swallowed `float` fail); being total
functions into `Option`, the adapters return `none` — never `some 0` and
never an escaping parse error. -/
theorem C8_sentinel_fields_are_absent :
    (∀ row : List String,
      (row.getD 6 "" = "" ∨ row.getD 6 "" = "N/D" ∨ row.getD 6 "" = ".") →
      stooqRow row = none) ∧
    (∀ rows : List String,
      (∀ l ∈ rows.drop 1,
        (rowSplit l).getD 1 "" = "" ∨ (rowSplit l).getD 1 "" = "N/D" ∨
          (rowSplit l).getD 1 "" = ".") →
      fredScan rows = none) := by
  constructor
  · intro row hv
    unfold stooqRow
    rcases hv with h | h | h <;>
      rw [List.getD_eq_getElem?_getD] at h
    · rw [if_neg]
      simp [h]
    · rw [if_neg]
      simp [h]
    · split
      · rw [List.getD_eq_getElem?_getD, h]
        decide
      · rfl
  · intro rows hv
    unfold fredScan
    cases hf : (rows.drop 1).reverse.find? fredRowOk with
    | none => rfl
    | some line =>
      have hok : fredRowOk line = true := List.find?_some hf
      have hmem : line ∈ rows.drop 1 :=
        List.mem_reverse.mp (List.mem_of_find?_eq_some hf)
      simp only [fredRowOk, decide_eq_true_eq] at hok
      show pyFloat ((rowSplit line).getD 1 "") = none
      rcases hv line hmem with h | h | h
      · exact absurd h hok.2.1
      · rw [h]
        decide
      · exact absurd h hok.2.2

/-- C8 witness: a Stooq data row with close price `N/D` and a FRED series
whose only data row carries `.` both yield no price. -/
theorem C8_sentinel_fields_are_absent_witness :
    stooqRow ["^SPX", "2026-02-09", "22:00:00", "1", "2", "0", "N/D"] = none ∧
    fredScan ["DATE,SP500", "2026-02-09,."] = none :=
  ⟨C8_sentinel_fields_are_absent.1 _ (Or.inr (Or.inl rfl)),
   C8_sentinel_fields_are_absent.2 ["DATE,SP500", "2026-02-09,."]
     (by
       intro l hl
       simp at hl
       subst hl
       exact Or.inr (Or.inr rfl))⟩

/-! ### Claim theorems: the report builder -/

/-- C9: when the crypto index fetch raises with message `e` while the
stock index fetch and the price aggregation succeed, the assembled report
contains the full stock section, the crypto error line embedding `e`
(and `e` itself), and the full prices section, and is not empty: a failing
section never aborts or empties the report and never suppresses the other
sections. -/
theorem C9_crypto_failure_isolated (e : String) (sc : ℚ) (r u : String) (b s : ℚ) :
    strContains (build_report_text (Except.ok (sc, r, u)) (Except.error e)
        (Except.ok (b, s))) (stockBlockOk sc r u) ∧
    strContains (build_report_text (Except.ok (sc, r, u)) (Except.error e)
        (Except.ok (b, s))) (cryptoBlockErr e) ∧
    strContains (build_report_text (Except.ok (sc, r, u)) (Except.error e)
        (Except.ok (b, s))) e ∧
    strContains (build_report_text (Except.ok (sc, r, u)) (Except.error e)
        (Except.ok (b, s))) (pricesBlockOk b s) ∧
    build_report_text (Except.ok (sc, r, u)) (Except.error e)
        (Except.ok (b, s)) ≠ "" := by
  have hout : (build_report_text (Except.ok (sc, r, u)) (Except.error e)
      (Except.ok (b, s))).toList =
      "[".toList ++ (BOT_VERSION.toList ++ ("]\n".toList ++
        ((stockBlockOk sc r u).toList ++ ("\n\n".toList ++
          ((cryptoBlockErr e).toList ++ ("\n\n".toList ++
            (pricesBlockOk b s).toList)))))) := by
    simp [build_report_text, with_version, String.toList, String.data_append,
      List.append_assoc]
  refine ⟨?_, ?_, ?_, ?_, ?_⟩
  · refine ⟨"[".toList ++ BOT_VERSION.toList ++ "]\n".toList,
      "\n\n".toList ++ ((cryptoBlockErr e).toList ++ ("\n\n".toList ++
        (pricesBlockOk b s).toList)), ?_⟩
    rw [hout]
    simp [List.append_assoc]
  · refine ⟨"[".toList ++ BOT_VERSION.toList ++ "]\n".toList ++
      (stockBlockOk sc r u).toList ++ "\n\n".toList,
      "\n\n".toList ++ (pricesBlockOk b s).toList, ?_⟩
    rw [hout]
    simp [List.append_assoc]
  · refine ⟨"[".toList ++ BOT_VERSION.toList ++ "]\n".toList ++
      (stockBlockOk sc r u).toList ++ "\n\n".toList ++
      "Crypto Fear & Greed: ошибка (".toList,
      ")".toList ++ ("\n\n".toList ++ (pricesBlockOk b s).toList), ?_⟩
    rw [hout]
    simp [cryptoBlockErr, String.toList, String.data_append, List.append_assoc]
  · refine ⟨"[".toList ++ BOT_VERSION.toList ++ "]\n".toList ++
      (stockBlockOk sc r u).toList ++ "\n\n".toList ++
      (cryptoBlockErr e).toList ++ "\n\n".toList, [], ?_⟩
    rw [hout]
    simp [List.append_assoc]
  · intro h
    have h2 := congrArg String.toList h
    rw [hout] at h2
    rw [show ("[" : String).toList = ['['] from rfl] at h2
    simp at h2

/-! ### Helper lemmas: digit characters and the rendered ISO inputs -/

theorem digitCh_mod_isDigit (n : ℕ) : isDigitCh (digitCh (n % 10)) = true := by
  have h : n % 10 < 10 := Nat.mod_lt _ (by norm_num)
  generalize hk : n % 10 = k at h
  interval_cases k <;> decide

theorem d2n_digitCh_mod (n : ℕ) : d2n (digitCh (n % 10)) = n % 10 := by
  have h : n % 10 < 10 := Nat.mod_lt _ (by norm_num)
  generalize hk : n % 10 = k at h ⊢
  interval_cases k <;> decide

theorem digitCh_mod_ne_plus (n : ℕ) : ¬digitCh (n % 10) = '+' := by
  have h : n % 10 < 10 := Nat.mod_lt _ (by norm_num)
  generalize hk : n % 10 = k at h ⊢
  interval_cases k <;> decide

theorem digitCh_mod_ne_dash (n : ℕ) : ¬digitCh (n % 10) = '-' := by
  have h : n % 10 < 10 := Nat.mod_lt _ (by norm_num)
  generalize hk : n % 10 = k at h ⊢
  interval_cases k <;> decide

theorem digitCh_mod_ne_Z (n : ℕ) : ¬digitCh (n % 10) = 'Z' := by
  have h : n % 10 < 10 := Nat.mod_lt _ (by norm_num)
  generalize hk : n % 10 = k at h ⊢
  interval_cases k <;> decide

theorem digitCh_mod_not_space (n : ℕ) : isPySpace (digitCh (n % 10)) = false := by
  have h : n % 10 < 10 := Nat.mod_lt _ (by norm_num)
  generalize hk : n % 10 = k at h ⊢
  interval_cases k <;> decide

theorem takeSign_not_sign {c : Char} (h1 : ¬c = '+') (h2 : ¬c = '-')
    (r : List Char) : takeSign (c :: r) = (false, c :: r) := by
  simp [takeSign, h1, h2]

theorem takeDigits_nondigit {c : Char} (hc : isDigitCh c = false)
    (r : List Char) : takeDigits (c :: r) = (0, 0, c :: r) := by
  simp [takeDigits, hc]

theorem takeDigits_digit {c : Char} (hc : isDigitCh c = true) (r : List Char) :
    takeDigits (c :: r) =
      (d2n c * 10 ^ (takeDigits r).2.1 + (takeDigits r).1,
        (takeDigits r).2.1 + 1, (takeDigits r).2.2) := by
  simp [takeDigits, hc]

theorem dropWhile_id_of_not (p : Char → Bool) (l : List Char)
    (h : ∀ c ∈ l, p c = false) : l.dropWhile p = l := by
  cases l with
  | nil => rfl
  | cons c r =>
    rw [List.dropWhile_cons, h c (List.mem_cons_self c r)]
    simp

theorem stripList_id (l : List Char) (h : ∀ c ∈ l, isPySpace c = false) :
    stripList l = l := by
  unfold stripList
  rw [dropWhile_id_of_not _ _ h, dropWhile_id_of_not, List.reverse_reverse]
  intro c hc
  exact h c (List.mem_reverse.mp hc)

theorem replaceZL_append (a b : List Char) :
    replaceZL (a ++ b) = replaceZL a ++ replaceZL b := by
  simp [replaceZL]

theorem replaceZL_id (l : List Char) (h : ∀ c ∈ l, ¬c = 'Z') :
    replaceZL l = l := by
  induction l with
  | nil => rfl
  | cons c r ih =>
    rw [show replaceZL (c :: r) =
        (if c = 'Z' then ['+', '0', '0', ':', '0', '0'] else [c]) ++ replaceZL r
      from rfl]
    rw [if_neg (h c (List.mem_cons_self c r)), ih fun x hx => h x (List.mem_cons_of_mem c hx)]
    rfl

theorem isoCore_chars (y mo d h mi s : ℕ) :
    ∀ c ∈ isoCore y mo d h mi s, isPySpace c = false ∧ ¬c = 'Z' := by
  intro c hc
  simp only [isoCore, pad4, pad2, List.mem_append, List.mem_cons,
    List.mem_singleton, List.not_mem_nil, or_false] at hc
  rcases hc with (rfl | rfl | rfl | rfl) | rfl | (rfl | rfl) | rfl |
      (rfl | rfl) | rfl | (rfl | rfl) | rfl | (rfl | rfl) | rfl | (rfl | rfl) <;>
    first
      | exact ⟨digitCh_mod_not_space _, digitCh_mod_ne_Z _⟩
      | exact ⟨by decide, by decide⟩

theorem suffix_chars (off : OffsetSpec) :
    ∀ c ∈ off.suffix, isPySpace c = false := by
  intro c hc
  cases off with
  | zulu =>
    simp only [OffsetSpec.suffix, List.mem_singleton] at hc
    subst hc
    decide
  | plus oh om =>
    simp only [OffsetSpec.suffix, pad2, List.mem_append, List.mem_cons,
      List.mem_singleton, List.not_mem_nil, or_false] at hc
    rcases hc with rfl | (rfl | rfl) | rfl | (rfl | rfl) <;>
      first
        | exact digitCh_mod_not_space _
        | decide
  | minus oh om =>
    simp only [OffsetSpec.suffix, pad2, List.mem_append, List.mem_cons,
      List.mem_singleton, List.not_mem_nil, or_false] at hc
    rcases hc with rfl | (rfl | rfl) | rfl | (rfl | rfl) <;>
      first
        | exact digitCh_mod_not_space _
        | decide

/-- The suffix after `replace("Z", "+00:00")`. -/
theorem replaceZL_suffix (off : OffsetSpec) :
    replaceZL off.suffix =
      match off with
      | .zulu => ['+', '0', '0', ':', '0', '0']
      | .plus oh om => '+' :: (pad2 oh ++ ':' :: pad2 om)
      | .minus oh om => '-' :: (pad2 oh ++ ':' :: pad2 om) := by
  cases off with
  | zulu => rfl
  | plus oh om =>
    show replaceZL ('+' :: (pad2 oh ++ ':' :: pad2 om)) = _
    apply replaceZL_id
    intro c hc
    simp only [pad2, List.mem_append, List.mem_cons, List.mem_singleton,
      List.not_mem_nil, or_false] at hc
    rcases hc with rfl | (rfl | rfl) | rfl | (rfl | rfl) <;>
      first
        | exact digitCh_mod_ne_Z _
        | decide
  | minus oh om =>
    show replaceZL ('-' :: (pad2 oh ++ ':' :: pad2 om)) = _
    apply replaceZL_id
    intro c hc
    simp only [pad2, List.mem_append, List.mem_cons, List.mem_singleton,
      List.not_mem_nil, or_false] at hc
    rcases hc with rfl | (rfl | rfl) | rfl | (rfl | rfl) <;>
      first
        | exact digitCh_mod_ne_Z _
        | decide

theorem twoDigits_pad2 (n : ℕ) (h : n < 100) (r : List Char) :
    twoDigits (pad2 n ++ r) = some (n, r) := by
  have hv : n / 10 % 10 * 10 + n % 10 = n := by omega
  simp [pad2, twoDigits, digitCh_mod_isDigit (n / 10), digitCh_mod_isDigit n,
    d2n_digitCh_mod (n / 10), d2n_digitCh_mod n, hv]

theorem fourDigits_pad4 (n : ℕ) (h : n < 10000) (r : List Char) :
    fourDigits (pad4 n ++ r) = some (n, r) := by
  have hv : n / 1000 % 10 * 1000 + n / 100 % 10 * 100 + n / 10 % 10 * 10 + n % 10 = n := by
    omega
  simp [pad4, fourDigits, digitCh_mod_isDigit (n / 1000),
    digitCh_mod_isDigit (n / 100), digitCh_mod_isDigit (n / 10),
    digitCh_mod_isDigit n, d2n_digitCh_mod (n / 1000), d2n_digitCh_mod (n / 100),
    d2n_digitCh_mod (n / 10), d2n_digitCh_mod n, hv]

theorem expectCh_self (c : Char) (r : List Char) : expectCh c (c :: r) = some r := by
  simp [expectCh]

theorem twoDigits_pad2_nil (n : ℕ) (h : n < 100) :
    twoDigits (pad2 n) = some (n, []) := by
  have h2 := twoDigits_pad2 n h []
  rwa [List.append_nil] at h2

theorem fieldSep_pad2 (sep : Char) (n : ℕ) (h : n < 100) (r : List Char) :
    fieldSep sep (pad2 n ++ sep :: r) = some (n, r) := by
  simp [fieldSep, twoDigits_pad2 n h (sep :: r), expectCh_self]

theorem parseDatePart_render (y mo d : ℕ) (hy : y < 10000) (hmo : mo < 100)
    (hd : d < 100) (r : List Char) :
    parseDatePart (pad4 y ++ '-' :: (pad2 mo ++ '-' :: (pad2 d ++ 'T' :: r))) =
      some (y, mo, d, r) := by
  simp [parseDatePart, fourDigits_pad4 y hy, expectCh_self,
    fieldSep_pad2 '-' mo hmo, fieldSep_pad2 'T' d hd]

theorem parseTimePart_render (h mi s : ℕ) (hh : h < 100) (hmi : mi < 100)
    (hs : s < 100) (r : List Char) :
    parseTimePart (pad2 h ++ ':' :: (pad2 mi ++ ':' :: (pad2 s ++ r))) =
      some (h, mi, s, r) := by
  simp [parseTimePart, fieldSep_pad2 ':' h hh, fieldSep_pad2 ':' mi hmi,
    twoDigits_pad2 s hs r]

theorem parseOffsetPart_plus (oh om : ℕ) (h1 : oh ≤ 23) (h2 : om ≤ 59) :
    parseOffsetPart ('+' :: (pad2 oh ++ ':' :: pad2 om)) =
      some (some ((oh : ℤ) * 3600 + (om : ℤ) * 60)) := by
  simp [parseOffsetPart, fieldSep_pad2 ':' oh (by omega) (pad2 om),
    twoDigits_pad2_nil om (by omega), h1, h2]

theorem parseOffsetPart_minus (oh om : ℕ) (h1 : oh ≤ 23) (h2 : om ≤ 59) :
    parseOffsetPart ('-' :: (pad2 oh ++ ':' :: pad2 om)) =
      some (some (-((oh : ℤ) * 3600 + (om : ℤ) * 60))) := by
  simp [parseOffsetPart, fieldSep_pad2 ':' oh (by omega) (pad2 om),
    twoDigits_pad2_nil om (by omega), h1, h2]

/-- The normalized (right-associated) character list of a rendered ISO
string with tail `tail` after the seconds field. -/
theorem isoCore_append (y mo d h mi s : ℕ) (tail : List Char) :
    isoCore y mo d h mi s ++ tail =
      pad4 y ++ '-' :: (pad2 mo ++ '-' :: (pad2 d ++ 'T' ::
        (pad2 h ++ ':' :: (pad2 mi ++ ':' :: (pad2 s ++ tail))))) := by
  simp [isoCore, List.append_assoc]

theorem daysInMonth_le (y m : ℕ) : daysInMonth y m ≤ 31 := by
  unfold daysInMonth
  split_ifs <;> omega

theorem pyFromIsoL_render (y mo d h mi s : ℕ) (o : Option ℤ)
    (hy1 : 1 ≤ y) (hy2 : y ≤ 9999) (hmo1 : 1 ≤ mo) (hmo2 : mo ≤ 12)
    (hd1 : 1 ≤ d) (hd2 : d ≤ daysInMonth y mo) (hh : h ≤ 23) (hmi : mi ≤ 59)
    (hs : s ≤ 59) (tail : List Char) (htail : parseOffsetPart tail = some o) :
    pyFromIsoL (isoCore y mo d h mi s ++ tail) =
      some (toEpoch y mo d h mi s, o) := by
  have hd100 : d < 100 := by
    have := daysInMonth_le y mo
    omega
  rw [isoCore_append]
  simp [pyFromIsoL,
    parseDatePart_render y mo d (by omega) (by omega) hd100,
    parseTimePart_render h mi s (by omega) (by omega) (by omega) tail,
    hy1, hmo1, hmo2, hd1, hd2, hh, hmi, hs, htail]

theorem pyFloatL_pad4_dash (n : ℕ) (rest : List Char) :
    pyFloatL (pad4 n ++ '-' :: rest) = none := by
  show pyFloatL (digitCh (n / 1000 % 10) :: digitCh (n / 100 % 10) ::
    digitCh (n / 10 % 10) :: digitCh (n % 10) :: '-' :: rest) = none
  simp [pyFloatL, parseExp,
    takeSign_not_sign (digitCh_mod_ne_plus (n / 1000)) (digitCh_mod_ne_dash (n / 1000)),
    takeDigits_digit (digitCh_mod_isDigit (n / 1000)),
    takeDigits_digit (digitCh_mod_isDigit (n / 100)),
    takeDigits_digit (digitCh_mod_isDigit (n / 10)),
    takeDigits_digit (digitCh_mod_isDigit n),
    takeDigits_nondigit (show isDigitCh '-' = false by decide)]

/-- The characters of the rendered ISO string are not whitespace. -/
theorem isoString_chars (y mo d h mi s : ℕ) (off : OffsetSpec) :
    ∀ c ∈ isoCore y mo d h mi s ++ off.suffix, isPySpace c = false := by
  intro c hc
  rcases List.mem_append.mp hc with hm | hm
  · exact (isoCore_chars y mo d h mi s c hm).1
  · exact suffix_chars off c hm

/-- Unfolding of `parse_timestamp_utc` on a string input. -/
theorem parse_str_eq (s0 : String) :
    parse_timestamp_utc (PyScalar.str s0) =
      match pyFloat (pyStrip s0) with
      | some ts =>
        match numericBranch ts with
        | some dt => some dt
        | none => isoBranch (pyStrip s0)
      | none => isoBranch (pyStrip s0) := rfl

/-! ### Claim theorems: the timestamp normalizer -/

/-- C7 counterexample: the input `-2·10¹²` has magnitude above `10¹²`, yet
the code does not divide it by 1000 (the comparison `ts > 1e12` is on the
signed value): `effectiveSeconds` leaves it unchanged, and the call in
fact raises (`utcfromtimestamp` rejects it as out of range and the numeric
string then fails ISO parsing) instead of treating it as milliseconds. -/
theorem C7_counterexample :
    (10 ^ 12 : ℚ) < |(-2000000000000 : ℚ)| ∧
    effectiveSeconds (-2000000000000) = -2000000000000 ∧
    (-2000000000000 : ℚ) / 1000 ≠ -2000000000000 ∧
    parse_timestamp_utc (PyScalar.num (-2000000000000)) = none := by
  have heff : effectiveSeconds (-2000000000000) = -2000000000000 := by
    unfold effectiveSeconds
    rw [if_neg]
    norm_num
  refine ⟨by norm_num, heff, by norm_num, ?_⟩
  show numericBranch (-2000000000000) = none
  unfold numericBranch utcfromtimestampQ
  rw [heff, if_neg]
  norm_num [minEpoch]

/-- C7 (amended): a numeric input is compared signed, not by magnitude: a
parsed value strictly greater than `10¹²` is divided by 1000 before
conversion, and every other value — including every negative one, whatever
its magnitude — is converted as seconds directly. -/
theorem C7_millisecond_heuristic_is_signed (q : ℚ) :
    (10 ^ 12 < q → (minEpoch : ℚ) ≤ q / 1000 → q / 1000 < (maxEpochSucc : ℚ) →
      parse_timestamp_utc (PyScalar.num q) = some (q / 1000)) ∧
    (q ≤ 10 ^ 12 → (minEpoch : ℚ) ≤ q → q < (maxEpochSucc : ℚ) →
      parse_timestamp_utc (PyScalar.num q) = some q) := by
  constructor
  · intro h h1 h2
    show numericBranch q = _
    unfold numericBranch effectiveSeconds utcfromtimestampQ
    rw [if_pos h, if_pos ⟨h1, h2⟩]
  · intro h h1 h2
    show numericBranch q = _
    unfold numericBranch effectiveSeconds utcfromtimestampQ
    rw [if_neg (not_lt.mpr h), if_pos ⟨h1, h2⟩]

/-- C7 witness: `1770672000000` is taken as milliseconds and divided;
`1770672000` is taken as seconds. -/
theorem C7_millisecond_heuristic_is_signed_witness :
    parse_timestamp_utc (PyScalar.num 1770672000000) = some 1770672000 ∧
    parse_timestamp_utc (PyScalar.num 1770672000) = some 1770672000 := by
  constructor
  · rw [(C7_millisecond_heuristic_is_signed 1770672000000).1
      (by norm_num) (by norm_num [minEpoch]) (by norm_num [maxEpochSucc])]
    norm_num
  · exact (C7_millisecond_heuristic_is_signed 1770672000).2
      (by norm_num) (by norm_num [minEpoch]) (by norm_num [maxEpochSucc])

/-- C6 counterexample: the claim's own example instant disagrees across
representations: the numeric inputs `1770672000` (seconds) land on
2026-02-09 21:20 UTC while `"2026-02-09T20:00:00Z"` lands on
2026-02-09 20:00 UTC — different display minutes; and for the instant
`10⁹` seconds (2001-09-09T01:46:40Z) the millisecond representation
`10¹²` is not above the `1e12` threshold, is misread as seconds and is
rejected as out of range, while the seconds representation parses fine. -/
theorem C6_counterexample :
    parse_timestamp_utc (PyScalar.num 1770672000) = some 1770672000 ∧
    parse_timestamp_utc (PyScalar.str "2026-02-09T20:00:00Z") = some 1770667200 ∧
    minuteFloor 1770672000 ≠ minuteFloor 1770667200 ∧
    parse_timestamp_utc (PyScalar.num 1000000000000) = none ∧
    parse_timestamp_utc (PyScalar.num 1000000000) = some 1000000000 := by
  refine ⟨by decide, by decide, ?_, ?_, by decide⟩
  · show (⌊(1770672000 : ℚ) / 60⌋ : ℤ) ≠ ⌊(1770667200 : ℚ) / 60⌋
    rw [show (1770672000 : ℚ) / 60 = 29511200 by norm_num,
      show (1770667200 : ℚ) / 60 = 29511120 by norm_num]
    norm_num
  · show numericBranch 1000000000000 = none
    norm_num [numericBranch, effectiveSeconds, utcfromtimestampQ, minEpoch,
      maxEpochSucc]

/-- C6 (amended): for every instant strictly after epoch second `10⁹`
(2001-09-09T01:46:40Z, past which the millisecond heuristic is sound) and
within `datetime`'s range, the three representations — epoch seconds,
epoch milliseconds, and an ISO-8601 string with trailing `Z` or explicit
offset — are all normalized by `parse_timestamp_utc` to the same naive UTC
timestamp (exactly equal, hence equal at minute precision).  The instant
is given by civil fields plus an offset; its epoch second is
`toEpoch y mo d h mi s - off.seconds`. -/
theorem C6_representations_normalize_equally (y mo d h mi s : ℕ)
    (off : OffsetSpec) (hy1 : 1 ≤ y) (hy2 : y ≤ 9999) (hmo1 : 1 ≤ mo)
    (hmo2 : mo ≤ 12) (hd1 : 1 ≤ d) (hd2 : d ≤ daysInMonth y mo) (hh : h ≤ 23)
    (hmi : mi ≤ 59) (hs : s ≤ 59) (hoff : off.valid)
    (ht1 : 10 ^ 9 < toEpoch y mo d h mi s - off.seconds)
    (ht2 : toEpoch y mo d h mi s - off.seconds < maxEpochSucc) :
    parse_timestamp_utc
        (PyScalar.num ((toEpoch y mo d h mi s - off.seconds : ℤ) : ℚ)) =
      some ((toEpoch y mo d h mi s - off.seconds : ℤ) : ℚ) ∧
    parse_timestamp_utc
        (PyScalar.num (1000 * ((toEpoch y mo d h mi s - off.seconds : ℤ) : ℚ))) =
      some ((toEpoch y mo d h mi s - off.seconds : ℤ) : ℚ) ∧
    parse_timestamp_utc (PyScalar.str (isoString y mo d h mi s off)) =
      some ((toEpoch y mo d h mi s - off.seconds : ℤ) : ℚ) := by
  have ht1' : (1000000000 : ℤ) < toEpoch y mo d h mi s - off.seconds := by
    norm_num at ht1
    exact ht1
  have hz1 : minEpoch ≤ toEpoch y mo d h mi s - off.seconds := by
    unfold minEpoch
    omega
  have hq1 : ((minEpoch : ℤ) : ℚ) ≤ ((toEpoch y mo d h mi s - off.seconds : ℤ) : ℚ) := by
    exact_mod_cast hz1
  have hq2 : ((toEpoch y mo d h mi s - off.seconds : ℤ) : ℚ) <
      ((maxEpochSucc : ℤ) : ℚ) := by
    exact_mod_cast ht2
  have hqmax : ((maxEpochSucc : ℤ) : ℚ) ≤ 10 ^ 12 := by
    norm_num [maxEpochSucc]
  have hq3 : ¬(10 ^ 12 < ((toEpoch y mo d h mi s - off.seconds : ℤ) : ℚ)) := by
    push_neg
    linarith
  have hq9 : (10 : ℚ) ^ 9 < ((toEpoch y mo d h mi s - off.seconds : ℤ) : ℚ) := by
    exact_mod_cast ht1
  have hq4 : (10 : ℚ) ^ 12 < 1000 * ((toEpoch y mo d h mi s - off.seconds : ℤ) : ℚ) := by
    calc (10 : ℚ) ^ 12 = 1000 * 10 ^ 9 := by norm_num
    _ < 1000 * ((toEpoch y mo d h mi s - off.seconds : ℤ) : ℚ) := by linarith
  refine ⟨?_, ?_, ?_⟩
  · show numericBranch _ = _
    unfold numericBranch
    have heff : effectiveSeconds ((toEpoch y mo d h mi s - off.seconds : ℤ) : ℚ) =
        ((toEpoch y mo d h mi s - off.seconds : ℤ) : ℚ) := by
      unfold effectiveSeconds
      rw [if_neg hq3]
    rw [heff]
    unfold utcfromtimestampQ
    rw [if_pos ⟨hq1, hq2⟩]
  · show numericBranch _ = _
    unfold numericBranch
    have heff : effectiveSeconds (1000 * ((toEpoch y mo d h mi s - off.seconds : ℤ) : ℚ)) =
        ((toEpoch y mo d h mi s - off.seconds : ℤ) : ℚ) := by
      unfold effectiveSeconds
      rw [if_pos hq4]
      exact mul_div_cancel_left₀ _ (by norm_num)
    rw [heff]
    unfold utcfromtimestampQ
    rw [if_pos ⟨hq1, hq2⟩]
  · have hchars := isoString_chars y mo d h mi s off
    have hraw : pyStrip (isoString y mo d h mi s off) =
        String.mk (isoCore y mo d h mi s ++ off.suffix) := by
      unfold pyStrip
      rw [show (isoString y mo d h mi s off).toList =
          isoCore y mo d h mi s ++ off.suffix from rfl]
      rw [stripList_id _ hchars]
    have hfloat : pyFloat (pyStrip (isoString y mo d h mi s off)) = none := by
      rw [hraw]
      unfold pyFloat
      rw [show (String.mk (isoCore y mo d h mi s ++ off.suffix)).toList =
          isoCore y mo d h mi s ++ off.suffix from rfl]
      rw [stripList_id _ hchars, isoCore_append]
      exact pyFloatL_pad4_dash y _
    have htail : parseOffsetPart (replaceZL off.suffix) =
        some (some off.seconds) := by
      cases off with
      | zulu => decide
      | plus oh om =>
        rw [replaceZL_suffix]
        exact parseOffsetPart_plus oh om hoff.1 hoff.2
      | minus oh om =>
        rw [replaceZL_suffix]
        exact parseOffsetPart_minus oh om hoff.1 hoff.2
    have hiso : isoBranch (pyStrip (isoString y mo d h mi s off)) =
        some ((toEpoch y mo d h mi s - off.seconds : ℤ) : ℚ) := by
      rw [hraw]
      unfold isoBranch
      rw [show (String.mk (isoCore y mo d h mi s ++ off.suffix)).toList =
          isoCore y mo d h mi s ++ off.suffix from rfl]
      rw [replaceZL_append,
        replaceZL_id _ fun c hc => (isoCore_chars y mo d h mi s c hc).2]
      rw [pyFromIsoL_render y mo d h mi s (some off.seconds) hy1 hy2 hmo1 hmo2
        hd1 hd2 hh hmi hs _ htail]
      show (if minEpoch ≤ toEpoch y mo d h mi s - off.seconds ∧
          toEpoch y mo d h mi s - off.seconds < maxEpochSucc then
          some (((toEpoch y mo d h mi s - off.seconds : ℤ) : ℚ)) else none) =
        some ((toEpoch y mo d h mi s - off.seconds : ℤ) : ℚ)
      rw [if_pos ⟨hz1, ht2⟩]
    rw [parse_str_eq, hfloat]
    exact hiso

/-- C6 witness: the corrected example — `1770667200` seconds,
`1770667200000` milliseconds and `"2026-02-09T20:00:00Z"` all normalize to
2026-02-09 20:00:00 UTC (epoch `1770667200`; the claim's numeral
`1770672000` is 21:20 UTC, not 20:00). -/
theorem C6_representations_normalize_equally_witness :
    parse_timestamp_utc (PyScalar.num 1770667200) = some 1770667200 ∧
    parse_timestamp_utc (PyScalar.num 1770667200000) = some 1770667200 ∧
    parse_timestamp_utc (PyScalar.str "2026-02-09T20:00:00Z") =
      some 1770667200 := by
  have h := C6_representations_normalize_equally 2026 2 9 20 0 0 .zulu
    (by norm_num) (by norm_num) (by norm_num) (by norm_num) (by norm_num)
    (by decide) (by norm_num) (by norm_num) (by norm_num) trivial
    (by decide) (by decide)
  have hT : toEpoch 2026 2 9 20 0 0 - OffsetSpec.seconds OffsetSpec.zulu =
      1770667200 := by decide
  rw [hT] at h
  have hstr : isoString 2026 2 9 20 0 0 OffsetSpec.zulu =
      "2026-02-09T20:00:00Z" := by decide
  rw [hstr] at h
  have hcast : ((1770667200 : ℤ) : ℚ) = 1770667200 := by norm_num
  rw [hcast] at h
  have hms : (1000 : ℚ) * 1770667200 = 1770667200000 := by norm_num
  rw [hms] at h
  exact h

end Bot
